import Mathlib

/-!
Verification development for the three-rapier-playground repository.

The definitions below are a shallow embedding of the fixed-timestep
simulation loop, the player vertical-motion state machine, the
visibility pause handler, and the level loader of `src/main.ts`
(the file cited by the claims). Timestamps and velocities are JS
numbers; they are modelled as rationals, with `Int.ceil` standing for
`Math.ceil` and `max` for `Math.max` (all inputs in scope are exact
decimals, so rational arithmetic coincides with the float arithmetic
the code performs on them).
-/

namespace Playground

/-- `PHYSICS_UPDATE_PER_SECOND = 60` (main.ts:35). -/
def PHYSICS_UPDATE_PER_SECOND : ℚ := 60

/-- The fixed tick duration in milliseconds, written in the code as
`1 / PHYSICS_UPDATE_PER_SECOND * 1000` (main.ts:339). -/
def fixedTickDurationMs : ℚ := 1 / PHYSICS_UPDATE_PER_SECOND * 1000

/-- The y component of `GRAVITY_VECTOR = (0, -9.81, 0)` (main.ts:34). -/
def GRAVITY_Y : ℚ := -981/100

/-- The module-level timing state of `main.ts:327-329`:
`startTimeMs`, `elapsedTimeMs` (both nullable) and `elapsedTickCounter`. -/
structure ClockState where
  startTimeMs : Option ℚ
  elapsedTimeMs : Option ℚ
  elapsedTickCounter : ℤ
  deriving DecidableEq, Repr

/-- The initial values of the timing variables (main.ts:327-329),
also restored by `clearAnimationAndTimings` (main.ts:430-435). -/
def initClockState : ClockState := ⟨none, none, 0⟩

/-- Observable events emitted by one `animate` frame (main.ts:331-354):
a `tick` is one `updateRapier()` call (which performs `physicsWorld.step()`,
main.ts:358-359); `playerUpdate d` is the single `updatePlayer(deltaTimeMs)`
call made from `updateThree` (main.ts:421-428); `render` is the
`renderer.render` call ending `updateThree`. -/
inductive FrameEvent where
  | tick (index : ℤ)
  | playerUpdate (deltaTimeMs : ℚ)
  | render
  deriving DecidableEq, Repr

/-- The integer interval `[a, b)` traversed by the JS loop
`for (let tick = a; tick < b; tick++)` (main.ts:342). -/
def tickRange (a b : ℤ) : List ℤ :=
  (List.range (b - a).toNat).map (fun (i : ℕ) => a + (i : ℤ))

/-- `elapsedTimeMs !== null ? timeMs - elapsedTimeMs : 0` (main.ts:346). -/
def frameDelta (s : ClockState) (timeMs : ℚ) : ℚ :=
  match s.elapsedTimeMs with
  | some e => timeMs - e
  | none => 0

/-- One call of `animate(timeMs)` (main.ts:331-354): latch `startTimeMs`
on the first call, compute `tickCounter = Math.ceil((timeMs - startTimeMs)
/ (1 / PHYSICS_UPDATE_PER_SECOND * 1000))`, run `updateRapier()` for each
tick index in `[elapsedTickCounter, tickCounter)`, then run
`updateThree(deltaTimeMs)` (one player update and one render), and store
`elapsedTickCounter = tickCounter`, `elapsedTimeMs = timeMs`.
Returns the emitted event list and the updated timing state. -/
def animate (s : ClockState) (timeMs : ℚ) : List FrameEvent × ClockState :=
  let startTimeMs : ℚ := s.startTimeMs.getD timeMs
  let tickCounter : ℤ := ⌈(timeMs - startTimeMs) / fixedTickDurationMs⌉
  ((tickRange s.elapsedTickCounter tickCounter).map FrameEvent.tick ++
      [FrameEvent.playerUpdate (frameDelta s timeMs), FrameEvent.render],
    ⟨some startTimeMs, some timeMs, tickCounter⟩)

/-- Successive `animate` frames over a list of timestamps, concatenating
the emitted events. -/
def runAnimate (s : ClockState) : List ℚ → List FrameEvent × ClockState
  | [] => ([], s)
  | t :: ts =>
    let step := animate s t
    let rest := runAnimate step.2 ts
    (step.1 ++ rest.1, rest.2)

/-- The indices of the physics ticks in an event trace. -/
def tickIndices (evs : List FrameEvent) : List ℤ :=
  evs.filterMap (fun e => match e with | .tick i => some i | _ => none)

/-- The deltaTimeMs arguments of player updates in an event trace. -/
def playerDeltas (evs : List FrameEvent) : List ℚ :=
  evs.filterMap (fun e => match e with | .playerUpdate d => some d | _ => none)

def isTick : FrameEvent → Bool
  | .tick _ => true
  | _ => false

def isPlayerUpdate : FrameEvent → Bool
  | .playerUpdate _ => true
  | _ => false

def isRender : FrameEvent → Bool
  | .render => true
  | _ => false

/-- Reachability invariant of the timing state: either freshly
initialized / reset, or exactly the state left behind by some frame. -/
def ClockInv (s : ClockState) : Prop :=
  (s.startTimeMs = none ∧ s.elapsedTimeMs = none ∧ s.elapsedTickCounter = 0) ∨
  (∃ st t0, s.startTimeMs = some st ∧ s.elapsedTimeMs = some t0 ∧
    s.elapsedTickCounter = ⌈(t0 - st) / fixedTickDurationMs⌉)

/-- The `playerInput` record (main.ts:164-170). The fields are JS
numbers set to 0/1 by the key handlers. -/
structure PlayerInput where
  forward : ℚ
  backward : ℚ
  left : ℚ
  right : ℚ
  jump : ℚ
  deriving DecidableEq, Repr

/-- The key codes distinguished by the handlers (main.ts:232-271);
`other` stands for any key code with no switch case. -/
inductive KeyCode where
  | keyW
  | keyS
  | keyA
  | keyD
  | space
  | other
  deriving DecidableEq, Repr

/-- The `keydown` handler (main.ts:232-252): ignores repeats, sets the
matching axis (or the jump flag) to 1. -/
def onKeyDown (repeated : Bool) (code : KeyCode) (i : PlayerInput) : PlayerInput :=
  if repeated then i
  else
    match code with
    | .keyW => { i with forward := 1 }
    | .keyS => { i with backward := 1 }
    | .keyA => { i with left := 1 }
    | .keyD => { i with right := 1 }
    | .space => { i with jump := 1 }
    | .other => i

/-- The `keyup` handler (main.ts:254-271): ignores repeats, clears the
four directional axes; it has no case for `Space`. -/
def onKeyUp (repeated : Bool) (code : KeyCode) (i : PlayerInput) : PlayerInput :=
  if repeated then i
  else
    match code with
    | .keyW => { i with forward := 0 }
    | .keyS => { i with backward := 0 }
    | .keyA => { i with left := 0 }
    | .keyD => { i with right := 0 }
    | .space => i
    | .other => i

/-- `GROUNDED_TIMER_DEFAULT_VALUE = 1` (main.ts:274). -/
def GROUNDED_TIMER_DEFAULT_VALUE : ℚ := 1

/-- `VERTICAL_MOVEMENT = -0.001` (main.ts:276). -/
def VERTICAL_MOVEMENT : ℚ := -1/1000

/-- The vertical-motion state mutated by `updatePlayer`:
`playerInput` (main.ts:164-170), `groundedTimer` and `verticalMovement`
(main.ts:278-279). -/
structure PlayerState where
  input : PlayerInput
  groundedTimer : ℚ
  verticalMovement : ℚ
  deriving DecidableEq, Repr

/-- The gravity integration at main.ts:312-315:
`Math.max(verticalMovement + GRAVITY_VECTOR.y * (deltaTimeMs / 1000) * 0.1,
GRAVITY_VECTOR.y * (deltaTimeMs / 1000) * 2)`. -/
def integrateVertical (v dtMs : ℚ) : ℚ :=
  max (v + GRAVITY_Y * (dtMs / 1000) * (1/10)) (GRAVITY_Y * (dtMs / 1000) * 2)

/-- The grounded/jump/vertical part of `updatePlayer(deltaTimeMs)`
(main.ts:296-315). The `grounded` argument models the value of
`characterController.computedGrounded()` (the grounding state of the
previous resolved movement, a query on the external physics library).
Returns the updated state together with the vertical component that
`movementVector.setY(verticalMovement)` gives to the movement vector
passed to `computeColliderMovement` on this call (main.ts:311, 317).
The camera/quaternion and horizontal x/z handling (main.ts:282-293)
feeds the external rendering and physics libraries and carries no state
any claim depends on, so it is not part of the embedded state. -/
def updatePlayer (grounded : Bool) (dtMs : ℚ) (s : PlayerState) : PlayerState × ℚ :=
  let s1 :=
    if grounded then
      { s with groundedTimer := GROUNDED_TIMER_DEFAULT_VALUE,
               verticalMovement := VERTICAL_MOVEMENT }
    else s
  let s2 :=
    if 0 < s1.groundedTimer then
      let s1' := { s1 with groundedTimer := max (s1.groundedTimer - dtMs / 1000) 0 }
      if 0 < s1'.input.jump then
        { s1' with verticalMovement := 1/4, groundedTimer := 0,
                   input := { s1'.input with jump := 0 } }
      else s1'
    else s1
  ({ s2 with verticalMovement := integrateVertical s2.verticalMovement dtMs },
    s2.verticalMovement)

/-- Iterates `updatePlayer` over a list of (grounded, deltaTimeMs)
inputs, collecting the emitted vertical movement components. -/
def runPlayer (s : PlayerState) : List (Bool × ℚ) → PlayerState × List ℚ
  | [] => (s, [])
  | (g, dt) :: rest =>
    let step := updatePlayer g dt s
    let next := runPlayer step.1 rest
    (next.1, step.2 :: next.2)

/-- Modelled from the spec's words for comparison (refinement check for
the gravity clamp): "integrate vertical velocity by gravity*scale*dt
each tick, clamped at a terminal fall speed equal to the raw gravity
constant". -/
def claimedVerticalUpdate (v dtMs : ℚ) : ℚ :=
  max (v + GRAVITY_Y * (dtMs / 1000) * (1/10)) GRAVITY_Y

/-- The loop-control state seen by `onDocumentVisibilityChange`
(main.ts:437-446): the nullable `animationId` (main.ts:32), the timing
variables, plus a model of the host scheduler: `pending` is the list of
ids of animation-frame callbacks currently scheduled and `nextId` the
next id `requestAnimationFrame` hands out. -/
structure LoopState where
  clock : ClockState
  animationId : Option ℕ
  pending : List ℕ
  nextId : ℕ
  deriving DecidableEq, Repr

/-- `onDocumentVisibilityChange` (main.ts:437-446): when the document is
hidden and a frame is scheduled, `cancelAnimationFrame(animationId)` and
`clearAnimationAndTimings()` (main.ts:430-435, nulling `animationId`,
`startTimeMs`, `elapsedTimeMs` and zeroing `elapsedTickCounter`);
otherwise `animationId = requestAnimationFrame(animate)`, which schedules
a fresh callback unconditionally. -/
def onDocVisibilityChange (hidden : Bool) (s : LoopState) : LoopState :=
  match hidden, s.animationId with
  | true, some id =>
    { s with animationId := none, clock := initClockState,
             pending := s.pending.erase id }
  | _, _ =>
    { s with animationId := some s.nextId, pending := s.nextId :: s.pending,
             nextId := s.nextId + 1 }

/-- One mesh encountered by `level.traverse` during level load
(main.ts:89-113). `positionAttr` models
`object3D.geometry.attributes['position']` (outer Option: the attribute
itself may be absent) and its `.array` (inner Option); `indexArr` models
`object3D.geometry.index?.array`; `worldPos` the mesh's world position. -/
structure MeshData where
  name : String
  positionAttr : Option (Option (List ℚ))
  indexArr : Option (List ℕ)
  worldPos : ℚ × ℚ × ℚ
  deriving DecidableEq, Repr

/-- The collider produced by `RAPIER.ColliderDesc.trimesh(positions,
indices)` with the translation applied (main.ts:102-111). -/
structure ColliderDesc where
  positions : List ℚ
  indices : List ℕ
  translation : ℚ × ℚ × ℚ
  deriving DecidableEq, Repr

/-- The body of the traverse callback for one mesh (main.ts:90-112).
`object3D.geometry.attributes['position'].array` dereferences the
position attribute before any guard, so a mesh with no position
attribute throws a TypeError (modelled as `Except.error`); after that,
`if (!indexes || !positionAttributes)` warns and skips; otherwise a
trimesh collider is created. -/
def processMesh (m : MeshData) : Except String (Option ColliderDesc × Option String) :=
  match m.positionAttr with
  | none =>
    .error ("TypeError: Cannot read properties of undefined reading array at mesh " ++ m.name)
  | some posArr =>
    match m.indexArr, posArr with
    | some idx, some pos => .ok (some ⟨pos, idx, m.worldPos⟩, none)
    | _, _ =>
      .ok (none, some ("Mesh " ++ m.name ++ " marked as a collider, but failed to retrieve position attributes or indices."))

/-- The level-load traversal over the meshes of the scene
(main.ts:89-113): processes each mesh in order; a thrown error aborts
the traversal, otherwise the created colliders and emitted warnings are
collected. -/
def loadLevel : List MeshData → Except String (List ColliderDesc × List String)
  | [] => .ok ([], [])
  | m :: ms =>
    match processMesh m with
    | .error e => .error e
    | .ok (c, w) =>
      match loadLevel ms with
      | .error e => .error e
      | .ok (cs, ws) => .ok (c.toList ++ cs, w.toList ++ ws)

/-- The collider the load produces for a mesh that has both data arrays. -/
def colliderOf (m : MeshData) : Option ColliderDesc :=
  match m.positionAttr, m.indexArr with
  | some (some pos), some idx => some ⟨pos, idx, m.worldPos⟩
  | _, _ => none

/-- The warning the load emits for a mesh whose data is incomplete. -/
def warningOf (m : MeshData) : Option String :=
  match m.positionAttr, m.indexArr with
  | some (some _), some _ => none
  | _, _ =>
    some ("Mesh " ++ m.name ++ " marked as a collider, but failed to retrieve position attributes or indices.")

lemma fixedTickDurationMs_pos : (0:ℚ) < fixedTickDurationMs := by
  norm_num [fixedTickDurationMs, PHYSICS_UPDATE_PER_SECOND]

lemma tickRange_eq_nil {a b : ℤ} (h : b ≤ a) : tickRange a b = [] := by
  simp [tickRange, Int.toNat_of_nonpos (sub_nonpos.mpr h)]

lemma tickRange_length (a b : ℤ) : (tickRange a b).length = (b - a).toNat := by
  simp [tickRange]

lemma tickRange_append {a b c : ℤ} (hab : a ≤ b) (hbc : b ≤ c) :
    tickRange a b ++ tickRange b c = tickRange a c := by
  unfold tickRange
  have h1 : (c - a).toNat = (b - a).toNat + (c - b).toNat := by omega
  have h2 : (fun (i : ℕ) => b + (i : ℤ)) =
      (fun (i : ℕ) => a + (i : ℤ)) ∘ (fun x => (b - a).toNat + x) := by
    funext x
    simp only [Function.comp_apply]
    push_cast [Int.toNat_of_nonneg (sub_nonneg.mpr hab)]
    ring
  rw [h1, List.range_add, List.map_append, List.map_map, ← h2]

lemma tickRange_nodup (a b : ℤ) : (tickRange a b).Nodup := by
  refine List.Nodup.map ?_ (List.nodup_range _)
  intro i j hij
  have h : a + (i : ℤ) = a + (j : ℤ) := hij
  omega

lemma animate_fst (s : ClockState) (t : ℚ) :
    (animate s t).1 =
      (tickRange s.elapsedTickCounter
          ⌈(t - s.startTimeMs.getD t) / fixedTickDurationMs⌉).map FrameEvent.tick ++
        [FrameEvent.playerUpdate (frameDelta s t), FrameEvent.render] := rfl

lemma animate_snd (s : ClockState) (t : ℚ) :
    (animate s t).2 =
      ⟨some (s.startTimeMs.getD t), some t,
        ⌈(t - s.startTimeMs.getD t) / fixedTickDurationMs⌉⟩ := rfl

lemma tickIndices_append (l1 l2 : List FrameEvent) :
    tickIndices (l1 ++ l2) = tickIndices l1 ++ tickIndices l2 :=
  List.filterMap_append l1 l2 _

lemma tickIndices_animate (s : ClockState) (t : ℚ) :
    tickIndices (animate s t).1 =
      tickRange s.elapsedTickCounter
        ⌈(t - s.startTimeMs.getD t) / fixedTickDurationMs⌉ := by
  rw [animate_fst, tickIndices, List.filterMap_append, List.filterMap_map]
  simp [Function.comp_def]

/-- Claim C1: for every frame call with timestamp `nowMs` (on a state
reachable in a run, with the wall clock not running backwards), the
simulation clock latches `startTime = nowMs` on the first call, computes
`targetTickCount = ceil((nowMs - startTime) / fixedTickDurationMs)`, runs
the physics stepper exactly `targetTickCount - elapsedTicks` times (a
number always >= 0), and then sets `elapsedTicks = targetTickCount`. -/
theorem c1_clock_tick_advance (s : ClockState) (t : ℚ)
    (hinv : ClockInv s) (hmono : ∀ et, s.elapsedTimeMs = some et → et ≤ t) :
    (s.startTimeMs = none → (animate s t).2.startTimeMs = some t) ∧
    (∀ st, s.startTimeMs = some st → (animate s t).2.startTimeMs = some st) ∧
    s.elapsedTickCounter ≤ ⌈(t - s.startTimeMs.getD t) / fixedTickDurationMs⌉ ∧
    ((tickIndices (animate s t).1).length : ℤ) =
      ⌈(t - s.startTimeMs.getD t) / fixedTickDurationMs⌉ - s.elapsedTickCounter ∧
    (animate s t).2.elapsedTickCounter =
      ⌈(t - s.startTimeMs.getD t) / fixedTickDurationMs⌉ ∧
    ClockInv (animate s t).2 := by
  have hle : s.elapsedTickCounter ≤
      ⌈(t - s.startTimeMs.getD t) / fixedTickDurationMs⌉ := by
    rcases hinv with ⟨h1, _, h3⟩ | ⟨st, t0, hst, het, he⟩
    · rw [h1, h3]
      simp
    · rw [hst, he]
      simp only [Option.getD_some]
      exact Int.ceil_le_ceil
        ((div_le_div_iff_of_pos_right fixedTickDurationMs_pos).mpr
          (sub_le_sub_right (hmono t0 het) st))
  refine ⟨?_, ?_, hle, ?_, ?_, ?_⟩
  · intro h
    rw [animate_snd, h]
    rfl
  · intro st h
    rw [animate_snd, h]
    rfl
  · rw [tickIndices_animate, tickRange_length]
    exact Int.toNat_of_nonneg (by omega)
  · rw [animate_snd]
  · rw [animate_snd]
    exact Or.inr ⟨s.startTimeMs.getD t, t, rfl, rfl, rfl⟩

/-- Witness for C1 at the initial state and timestamp 0. -/
theorem c1_clock_tick_advance_witness :
    ClockInv initClockState ∧
    (∀ et, initClockState.elapsedTimeMs = some et → et ≤ (0:ℚ)) ∧
    ((initClockState.startTimeMs = none →
        (animate initClockState 0).2.startTimeMs = some 0) ∧
      (∀ st, initClockState.startTimeMs = some st →
        (animate initClockState 0).2.startTimeMs = some st) ∧
      initClockState.elapsedTickCounter ≤
        ⌈((0:ℚ) - initClockState.startTimeMs.getD 0) / fixedTickDurationMs⌉ ∧
      ((tickIndices (animate initClockState 0).1).length : ℤ) =
        ⌈((0:ℚ) - initClockState.startTimeMs.getD 0) / fixedTickDurationMs⌉ -
          initClockState.elapsedTickCounter ∧
      (animate initClockState 0).2.elapsedTickCounter =
        ⌈((0:ℚ) - initClockState.startTimeMs.getD 0) / fixedTickDurationMs⌉ ∧
      ClockInv (animate initClockState 0).2) :=
  ⟨Or.inl ⟨rfl, rfl, rfl⟩, by simp [initClockState],
    c1_clock_tick_advance initClockState 0 (Or.inl ⟨rfl, rfl, rfl⟩)
      (by simp [initClockState])⟩

/-- The value of `elapsedTickCounter` after running frames `ts` from a
state with latched start time `st` and tick counter `e`. -/
def finalTick (st : ℚ) (e : ℤ) (ts : List ℚ) : ℤ :=
  match ts.getLast? with
  | none => e
  | some tn => ⌈(tn - st) / fixedTickDurationMs⌉

lemma runAnimate_tickIndices (st : ℚ) :
    ∀ (ts : List ℚ) (e : ℤ) (et : Option ℚ),
      List.Chain' (· ≤ ·) ts →
      (∀ t1, ts.head? = some t1 → e ≤ ⌈(t1 - st) / fixedTickDurationMs⌉) →
      tickIndices (runAnimate ⟨some st, et, e⟩ ts).1 = tickRange e (finalTick st e ts)
  | [], e, et, _, _ => by
    simp [runAnimate, tickIndices, finalTick, tickRange_eq_nil le_rfl]
  | t :: ts, e, et, hchain, hhead => by
    have hg : e ≤ ⌈(t - st) / fixedTickDurationMs⌉ := hhead t rfl
    have hsnd : (animate ⟨some st, et, e⟩ t).2 =
        ⟨some st, some t, ⌈(t - st) / fixedTickDurationMs⌉⟩ := by
      rw [animate_snd]
      rfl
    have hfst : tickIndices (animate ⟨some st, et, e⟩ t).1 =
        tickRange e ⌈(t - st) / fixedTickDurationMs⌉ := by
      rw [tickIndices_animate]
      rfl
    show tickIndices ((animate ⟨some st, et, e⟩ t).1 ++
        (runAnimate (animate ⟨some st, et, e⟩ t).2 ts).1) = _
    rw [tickIndices_append, hfst, hsnd]
    cases ts with
    | nil =>
      simp [runAnimate, tickIndices, finalTick]
    | cons t2 ts2 =>
      have hpair := (List.chain'_cons.mp hchain)
      have hrec := runAnimate_tickIndices st (t2 :: ts2)
        ⌈(t - st) / fixedTickDurationMs⌉ (some t) hpair.2 ?_
      · rw [hrec]
        have hlast : ∃ x, (t2 :: ts2).getLast? = some x := by
          cases h : (t2 :: ts2).getLast? with
          | none => exact absurd (List.getLast?_eq_none_iff.mp h) (by simp)
          | some x => exact ⟨x, rfl⟩
        obtain ⟨x, hx⟩ := hlast
        have hmemx : x ∈ t2 :: ts2 := List.mem_of_mem_getLast? hx
        have htx : t ≤ x := by
          have hp : List.Pairwise (· ≤ ·) (t :: t2 :: ts2) :=
            List.chain'_iff_pairwise.mp hchain
          exact (List.pairwise_cons.mp hp).1 x hmemx
        have hgf : ⌈(t - st) / fixedTickDurationMs⌉ ≤
            ⌈(x - st) / fixedTickDurationMs⌉ :=
          Int.ceil_le_ceil
            ((div_le_div_iff_of_pos_right fixedTickDurationMs_pos).mpr
              (sub_le_sub_right htx st))
        have hfin2 : finalTick st ⌈(t - st) / fixedTickDurationMs⌉ (t2 :: ts2) =
            ⌈(x - st) / fixedTickDurationMs⌉ := by
          simp [finalTick, hx]
        have hfin1 : finalTick st e (t :: t2 :: ts2) =
            ⌈(x - st) / fixedTickDurationMs⌉ := by
          simp [finalTick, List.getLast?_cons_cons, hx]
        rw [hfin1, hfin2]
        exact tickRange_append hg hgf
      · intro t1 h1
        have ht1 : t2 = t1 := by
          simpa using h1
        subst ht1
        exact Int.ceil_le_ceil
          ((div_le_div_iff_of_pos_right fixedTickDurationMs_pos).mpr
            (sub_le_sub_right hpair.1 st))

/-- Claim C4: for every sequence of frame timestamps strictly increasing
by a step smaller than the fixed tick duration, the total number of
physics ticks invoked over the whole run equals
`floor(totalElapsed / fixedTickDurationMs)` within plus or minus one
tick, and no tick index is invoked twice. -/
theorem c4_tick_count_bound (t0 : ℚ) (ts : List ℚ)
    (hchain : List.Chain' (fun a b => a < b ∧ b - a < fixedTickDurationMs) (t0 :: ts)) :
    ⌊(ts.getLastD t0 - t0) / fixedTickDurationMs⌋ ≤
      ((tickIndices (runAnimate initClockState (t0 :: ts)).1).length : ℤ) ∧
    ((tickIndices (runAnimate initClockState (t0 :: ts)).1).length : ℤ) ≤
      ⌊(ts.getLastD t0 - t0) / fixedTickDurationMs⌋ + 1 ∧
    (tickIndices (runAnimate initClockState (t0 :: ts)).1).Nodup := by
  have hchain2 : List.Chain' (· ≤ ·) (t0 :: ts) :=
    hchain.imp (fun a b h => le_of_lt h.1)
  have hsnd : (animate initClockState t0).2 = ⟨some t0, some t0, 0⟩ := by
    rw [animate_snd]
    simp [initClockState]
  have hfst : tickIndices (animate initClockState t0).1 = [] := by
    rw [tickIndices_animate]
    simp [initClockState, tickRange_eq_nil]
  have hrun : tickIndices (runAnimate initClockState (t0 :: ts)).1 =
      tickRange 0 (finalTick t0 0 ts) := by
    show tickIndices ((animate initClockState t0).1 ++
        (runAnimate (animate initClockState t0).2 ts).1) = _
    rw [tickIndices_append, hfst, hsnd,
      runAnimate_tickIndices t0 ts 0 (some t0) (List.chain'_cons'.mp hchain2).2 ?_]
    · simp
    · intro t1 h1
      have ht01 : t0 ≤ t1 := by
        cases ts with
        | nil => simp at h1
        | cons t2 ts2 =>
          have : t2 = t1 := by simpa using h1
          subst this
          exact (List.chain'_cons.mp hchain2).1
      exact Int.ceil_nonneg
        (div_nonneg (sub_nonneg.mpr ht01) fixedTickDurationMs_pos.le)
  rw [hrun]
  cases ts with
  | nil =>
    simp [finalTick, tickRange_eq_nil le_rfl, tickRange_nodup]
  | cons t2 ts2 =>
    obtain ⟨x, hx⟩ : ∃ x, (t2 :: ts2).getLast? = some x := by
      cases h : (t2 :: ts2).getLast? with
      | none => exact absurd (List.getLast?_eq_none_iff.mp h) (by simp)
      | some x => exact ⟨x, rfl⟩
    have hmemx : x ∈ t2 :: ts2 := List.mem_of_mem_getLast? hx
    have ht0x : t0 ≤ x := by
      have hp : List.Pairwise (· ≤ ·) (t0 :: t2 :: ts2) :=
        List.chain'_iff_pairwise.mp hchain2
      exact (List.pairwise_cons.mp hp).1 x hmemx
    have hfin : finalTick t0 0 (t2 :: ts2) = ⌈(x - t0) / fixedTickDurationMs⌉ := by
      simp [finalTick, hx]
    have hlastD : (t2 :: ts2).getLastD t0 = x := by
      rw [List.getLastD_eq_getLast?, hx]
      rfl
    have hF : 0 ≤ ⌈(x - t0) / fixedTickDurationMs⌉ :=
      Int.ceil_nonneg
        (div_nonneg (sub_nonneg.mpr ht0x) fixedTickDurationMs_pos.le)
    have hlen : ((tickRange 0 (finalTick t0 0 (t2 :: ts2))).length : ℤ) =
        ⌈(x - t0) / fixedTickDurationMs⌉ := by
      rw [hfin, tickRange_length]
      rw [sub_zero]
      exact Int.toNat_of_nonneg hF
    refine ⟨?_, ?_, tickRange_nodup _ _⟩
    · rw [hlen, hlastD]
      exact Int.floor_le_ceil _
    · rw [hlen, hlastD]
      exact Int.ceil_le_floor_add_one _

/-- Witness for C4 on the timestamp sequence 0, 10. -/
theorem c4_tick_count_bound_witness :
    List.Chain' (fun a b => a < b ∧ b - a < fixedTickDurationMs) ((0:ℚ) :: [10]) ∧
    (⌊(([10] : List ℚ).getLastD 0 - 0) / fixedTickDurationMs⌋ ≤
      ((tickIndices (runAnimate initClockState ((0:ℚ) :: [10])).1).length : ℤ) ∧
    ((tickIndices (runAnimate initClockState ((0:ℚ) :: [10])).1).length : ℤ) ≤
      ⌊(([10] : List ℚ).getLastD 0 - 0) / fixedTickDurationMs⌋ + 1 ∧
    (tickIndices (runAnimate initClockState ((0:ℚ) :: [10])).1).Nodup) := by
  have hch : List.Chain' (fun a b => a < b ∧ b - a < fixedTickDurationMs)
      ((0:ℚ) :: [10]) := by
    simp [List.chain'_cons]
    norm_num [fixedTickDurationMs, PHYSICS_UPDATE_PER_SECOND]
  exact ⟨hch, c4_tick_count_bound 0 [10] hch⟩

lemma countP_animate_tick (s : ClockState) (t : ℚ) :
    (animate s t).1.countP isTick =
      (⌈(t - s.startTimeMs.getD t) / fixedTickDurationMs⌉ -
        s.elapsedTickCounter).toNat := by
  rw [animate_fst, List.countP_append, List.countP_map]
  have h1 : List.countP (isTick ∘ FrameEvent.tick)
      (tickRange s.elapsedTickCounter
        ⌈(t - s.startTimeMs.getD t) / fixedTickDurationMs⌉) =
      (tickRange s.elapsedTickCounter
        ⌈(t - s.startTimeMs.getD t) / fixedTickDurationMs⌉).length := by
    apply List.countP_eq_length.mpr
    intro a _
    rfl
  rw [h1, tickRange_length]
  simp [isTick]

lemma countP_animate_player (s : ClockState) (t : ℚ) :
    (animate s t).1.countP isPlayerUpdate = 1 := by
  rw [animate_fst, List.countP_append, List.countP_map]
  have h1 : List.countP (isPlayerUpdate ∘ FrameEvent.tick)
      (tickRange s.elapsedTickCounter
        ⌈(t - s.startTimeMs.getD t) / fixedTickDurationMs⌉) = 0 := by
    apply List.countP_eq_zero.mpr
    intro a _
    simp [Function.comp_def, isPlayerUpdate]
  rw [h1]
  simp [isPlayerUpdate]

lemma countP_animate_render (s : ClockState) (t : ℚ) :
    (animate s t).1.countP isRender = 1 := by
  rw [animate_fst, List.countP_append, List.countP_map]
  have h1 : List.countP (isRender ∘ FrameEvent.tick)
      (tickRange s.elapsedTickCounter
        ⌈(t - s.startTimeMs.getD t) / fixedTickDurationMs⌉) = 0 := by
    apply List.countP_eq_zero.mpr
    intro a _
    simp [Function.comp_def, isRender]
  rw [h1]
  simp [isRender]

lemma playerDeltas_animate (s : ClockState) (t : ℚ) :
    playerDeltas (animate s t).1 = [frameDelta s t] := by
  rw [animate_fst, playerDeltas, List.filterMap_append, List.filterMap_map]
  simp [Function.comp_def]

/-- Counterexample to claim C2 (the run over frame timestamps 0 and 50):
across the run the physics stepper fires 3 times, but `updatePlayer` is
invoked only twice (once per animation frame, not once per tick), and
the deltas it receives are the measured frame deltas 0 and 50 ms, not
the fixed tick duration. -/
theorem c2_counterexample_player_update_not_per_tick :
    (runAnimate initClockState [0, 50]).1.countP isTick = 3 ∧
    (runAnimate initClockState [0, 50]).1.countP isPlayerUpdate = 2 ∧
    (runAnimate initClockState [0, 50]).1.countP isPlayerUpdate ≠
      (runAnimate initClockState [0, 50]).1.countP isTick ∧
    playerDeltas (runAnimate initClockState [0, 50]).1 = [0, 50] ∧
    (50 : ℚ) ≠ fixedTickDurationMs := by
  have htrace : (runAnimate initClockState [0, 50]).1 =
      (animate initClockState 0).1 ++
        ((animate (animate initClockState 0).2 50).1 ++ []) := rfl
  have hs1 : (animate initClockState 0).2 = ⟨some 0, some 0, 0⟩ := by
    rw [animate_snd]
    simp [initClockState]
  have hc1 : (⌈((0:ℚ) - initClockState.startTimeMs.getD 0) /
      fixedTickDurationMs⌉ - initClockState.elapsedTickCounter).toNat = 0 := by
    simp [initClockState]
  have hc2 : (⌈((50:ℚ) - (⟨some 0, some 0, 0⟩ : ClockState).startTimeMs.getD 50) /
      fixedTickDurationMs⌉ - (⟨some 0, some 0, 0⟩ : ClockState).elapsedTickCounter).toNat = 3 := by
    have h3 : ((50:ℚ) - (0:ℚ)) / fixedTickDurationMs = 3 := by
      norm_num [fixedTickDurationMs, PHYSICS_UPDATE_PER_SECOND]
    simp only [Option.getD_some, h3]
    norm_num
    decide
  have h1 : (runAnimate initClockState [0, 50]).1.countP isTick = 3 := by
    rw [htrace, hs1, List.countP_append, List.countP_append,
      countP_animate_tick, countP_animate_tick, hc1, hc2]
    rfl
  have h2 : (runAnimate initClockState [0, 50]).1.countP isPlayerUpdate = 2 := by
    rw [htrace, hs1, List.countP_append, List.countP_append,
      countP_animate_player, countP_animate_player]
    rfl
  have h4 : playerDeltas (runAnimate initClockState [0, 50]).1 = [0, 50] := by
    rw [htrace, hs1, playerDeltas, List.filterMap_append, List.filterMap_append]
    show playerDeltas (animate initClockState 0).1 ++
      (playerDeltas (animate (⟨some 0, some 0, 0⟩ : ClockState) 50).1 ++
        playerDeltas []) = [0, 50]
    rw [playerDeltas_animate, playerDeltas_animate]
    have hd1 : frameDelta initClockState 0 = 0 := rfl
    have hd2 : frameDelta (⟨some 0, some 0, 0⟩ : ClockState) 50 = 50 := by
      show (50:ℚ) - 0 = 50
      norm_num
    rw [hd1, hd2]
    rfl
  exact ⟨h1, h2, by rw [h1, h2]; decide, h4,
    by norm_num [fixedTickDurationMs, PHYSICS_UPDATE_PER_SECOND]⟩

/-- Amended claim C2: `updatePlayer` is invoked exactly once per
animation frame (not once per physics tick), after all of that frame's
physics ticks and before the frame's single render pass, and the delta
it receives is the measured frame delta (0 on the first frame), not the
fixed tick duration; each physics tick itself performs only the physics
step. -/
theorem c2_amended_player_update_once_per_frame (s : ClockState) (t : ℚ) :
    (animate s t).1.countP isPlayerUpdate = 1 ∧
    (animate s t).1.countP isRender = 1 ∧
    playerDeltas (animate s t).1 = [frameDelta s t] ∧
    (animate s t).1 =
      (tickIndices (animate s t).1).map FrameEvent.tick ++
        [FrameEvent.playerUpdate (frameDelta s t), FrameEvent.render] := by
  refine ⟨countP_animate_player s t, countP_animate_render s t,
    playerDeltas_animate s t, ?_⟩
  rw [tickIndices_animate, animate_fst]

lemma updatePlayer_airborne (s : PlayerState) (dt : ℚ) (h : s.groundedTimer ≤ 0) :
    updatePlayer false dt s =
      ({ s with verticalMovement := integrateVertical s.verticalMovement dt },
        s.verticalMovement) := by
  unfold updatePlayer
  simp [not_lt.mpr h]

lemma updatePlayer_grounded_nojump (s : PlayerState) (dt : ℚ) (h : s.input.jump ≤ 0) :
    updatePlayer true dt s =
      (⟨s.input, max (GROUNDED_TIMER_DEFAULT_VALUE - dt / 1000) 0,
          integrateVertical VERTICAL_MOVEMENT dt⟩,
        VERTICAL_MOVEMENT) := by
  unfold updatePlayer
  simp [GROUNDED_TIMER_DEFAULT_VALUE, not_lt.mpr h]

lemma updatePlayer_grounded_jump (s : PlayerState) (dt : ℚ) (h : 0 < s.input.jump) :
    updatePlayer true dt s =
      (⟨{ s.input with jump := 0 }, 0, integrateVertical (1/4) dt⟩, 1/4) := by
  unfold updatePlayer
  simp [GROUNDED_TIMER_DEFAULT_VALUE, h]

lemma runPlayer_airborne_state (dts : List ℚ) :
    ∀ (s : PlayerState), s.groundedTimer ≤ 0 →
      (runPlayer s (dts.map fun d => (false, d))).1.input = s.input ∧
      (runPlayer s (dts.map fun d => (false, d))).1.groundedTimer =
        s.groundedTimer := by
  induction dts with
  | nil =>
    intro s _
    exact ⟨rfl, rfl⟩
  | cons d dts ih =>
    intro s h
    rw [List.map_cons]
    show (runPlayer (updatePlayer false d s).1
        (dts.map fun d => (false, d))).1.input = s.input ∧
      (runPlayer (updatePlayer false d s).1
        (dts.map fun d => (false, d))).1.groundedTimer = s.groundedTimer
    rw [updatePlayer_airborne s d h]
    exact ih { s with verticalMovement := integrateVertical s.verticalMovement d } h

lemma runPlayer_airborne_jump_indep (dts : List ℚ) :
    ∀ (a b : PlayerState), a.groundedTimer ≤ 0 →
      a.groundedTimer = b.groundedTimer →
      a.verticalMovement = b.verticalMovement →
      (runPlayer a (dts.map fun d => (false, d))).2 =
        (runPlayer b (dts.map fun d => (false, d))).2 ∧
      (runPlayer a (dts.map fun d => (false, d))).1.verticalMovement =
        (runPlayer b (dts.map fun d => (false, d))).1.verticalMovement := by
  induction dts with
  | nil =>
    intro a b _ _ h3
    exact ⟨rfl, h3⟩
  | cons d dts ih =>
    intro a b h1 h2 h3
    rw [List.map_cons]
    have hb1 : b.groundedTimer ≤ 0 := h2 ▸ h1
    show (updatePlayer false d a).2 ::
        (runPlayer (updatePlayer false d a).1 (dts.map fun d => (false, d))).2 =
      (updatePlayer false d b).2 ::
        (runPlayer (updatePlayer false d b).1 (dts.map fun d => (false, d))).2 ∧
      (runPlayer (updatePlayer false d a).1
        (dts.map fun d => (false, d))).1.verticalMovement =
      (runPlayer (updatePlayer false d b).1
        (dts.map fun d => (false, d))).1.verticalMovement
    rw [updatePlayer_airborne a d h1, updatePlayer_airborne b d hb1, h3]
    have hrec := ih { a with verticalMovement := integrateVertical b.verticalMovement d }
      { b with verticalMovement := integrateVertical b.verticalMovement d }
      h1 h2 rfl
    exact ⟨congrArg (fun l => b.verticalMovement :: l) hrec.1, hrec.2⟩

lemma runPlayer_grounded_all_epsilon (dts : List ℚ) :
    ∀ (s : PlayerState), s.input.jump ≤ 0 →
      ∀ y ∈ (runPlayer s (dts.map fun d => (true, d))).2, y = VERTICAL_MOVEMENT := by
  induction dts with
  | nil =>
    intro s _ y hy
    simp [runPlayer] at hy
  | cons d dts ih =>
    intro s h y hy
    rw [List.map_cons] at hy
    have hy2 : y ∈ (updatePlayer true d s).2 ::
        (runPlayer (updatePlayer true d s).1 (dts.map fun d => (true, d))).2 := hy
    rcases List.mem_cons.mp hy2 with hhead | htail
    · rw [hhead, updatePlayer_grounded_nojump s d h]
    · refine ih (updatePlayer true d s).1 ?_ y htail
      rw [updatePlayer_grounded_nojump s d h]
      exact h

/-- Counterexample to claim C3: at deltaTimeMs = 50/3 and vertical
velocity -100, the code clamps the new vertical velocity at
`GRAVITY_Y * dt * 2 = -327/1000`, while the claimed rule (terminal fall
speed equal to the raw gravity constant) would give `GRAVITY_Y = -981/100`;
the two disagree. -/
theorem c3_counterexample_terminal_not_raw_gravity :
    (updatePlayer false (50/3) ⟨⟨0,0,0,0,0⟩, 0, -100⟩).1.verticalMovement =
      -327/1000 ∧
    claimedVerticalUpdate (-100) (50/3) = GRAVITY_Y ∧
    (updatePlayer false (50/3) ⟨⟨0,0,0,0,0⟩, 0, -100⟩).1.verticalMovement ≠
      claimedVerticalUpdate (-100) (50/3) := by
  have hstep := updatePlayer_airborne ⟨⟨0,0,0,0,0⟩, 0, -100⟩ (50/3) (by norm_num)
  have h1 : integrateVertical (-100) (50/3) = -327/1000 := by
    unfold integrateVertical
    rw [max_eq_right (by norm_num [GRAVITY_Y])]
    norm_num [GRAVITY_Y]
  have h2 : claimedVerticalUpdate (-100) (50/3) = GRAVITY_Y := by
    unfold claimedVerticalUpdate
    exact max_eq_right (by norm_num [GRAVITY_Y])
  refine ⟨?_, h2, ?_⟩
  · rw [hstep]
    exact h1
  · rw [hstep, h2]
    show integrateVertical (-100) (50/3) ≠ GRAVITY_Y
    rw [h1]
    norm_num [GRAVITY_Y]

/-- Amended claim C3: on every tick the vertical velocity is integrated
by `gravity * 0.1 * dt` and clamped below at a terminal fall speed equal
to `2 * gravity * dt` (twice the gravity constant times the tick duration
in seconds), not at the raw gravity constant; hence the stored vertical
velocity after every tick is at least `GRAVITY_Y * (dt/1000) * 2`. -/
theorem c3_amended_terminal_clamp (s : PlayerState) (g : Bool) (dt : ℚ) :
    (updatePlayer g dt s).1.verticalMovement =
      max ((updatePlayer g dt s).2 + GRAVITY_Y * (dt / 1000) * (1/10))
        (GRAVITY_Y * (dt / 1000) * 2) ∧
    GRAVITY_Y * (dt / 1000) * 2 ≤ (updatePlayer g dt s).1.verticalMovement := by
  have h : (updatePlayer g dt s).1.verticalMovement =
      integrateVertical ((updatePlayer g dt s).2) dt := rfl
  constructor
  · exact h
  · rw [h]
    exact le_max_right _ _

/-- Claim C6: with the jump flag set and the controller grounded, the
vertical velocity is set to the jump impulse 1/4 exactly once — the
grounded timer is zeroed and the flag cleared on that tick — and any
further jump request while airborne with grounded timer 0 has no effect
on the vertical velocity over any number of airborne ticks. -/
theorem c6_jump_consumed_once (s : PlayerState) (dt : ℚ)
    (hj : 0 < s.input.jump) :
    (updatePlayer true dt s).2 = 1/4 ∧
    (updatePlayer true dt s).1.groundedTimer = 0 ∧
    (updatePlayer true dt s).1.input.jump = 0 ∧
    (∀ (s2 : PlayerState) (dts : List ℚ), s2.groundedTimer ≤ 0 → ∀ j : ℚ,
      (runPlayer { s2 with input := { s2.input with jump := j } }
          (dts.map fun d => (false, d))).2 =
        (runPlayer { s2 with input := { s2.input with jump := 0 } }
          (dts.map fun d => (false, d))).2 ∧
      (runPlayer { s2 with input := { s2.input with jump := j } }
          (dts.map fun d => (false, d))).1.verticalMovement =
        (runPlayer { s2 with input := { s2.input with jump := 0 } }
          (dts.map fun d => (false, d))).1.verticalMovement) := by
  have hstep := updatePlayer_grounded_jump s dt hj
  refine ⟨by rw [hstep], by rw [hstep], by rw [hstep], ?_⟩
  intro s2 dts h j
  exact runPlayer_airborne_jump_indep dts _ _ h rfl rfl

/-- Witness for C6 at a grounded state with the jump flag set. -/
theorem c6_jump_consumed_once_witness :
    0 < (⟨⟨0,0,0,0,1⟩, 0, 0⟩ : PlayerState).input.jump ∧
    ((updatePlayer true (50/3) ⟨⟨0,0,0,0,1⟩, 0, 0⟩).2 = 1/4 ∧
    (updatePlayer true (50/3) ⟨⟨0,0,0,0,1⟩, 0, 0⟩).1.groundedTimer = 0 ∧
    (updatePlayer true (50/3) ⟨⟨0,0,0,0,1⟩, 0, 0⟩).1.input.jump = 0 ∧
    (∀ (s2 : PlayerState) (dts : List ℚ), s2.groundedTimer ≤ 0 → ∀ j : ℚ,
      (runPlayer { s2 with input := { s2.input with jump := j } }
          (dts.map fun d => (false, d))).2 =
        (runPlayer { s2 with input := { s2.input with jump := 0 } }
          (dts.map fun d => (false, d))).2 ∧
      (runPlayer { s2 with input := { s2.input with jump := j } }
          (dts.map fun d => (false, d))).1.verticalMovement =
        (runPlayer { s2 with input := { s2.input with jump := 0 } }
          (dts.map fun d => (false, d))).1.verticalMovement)) :=
  ⟨by norm_num, c6_jump_consumed_once ⟨⟨0,0,0,0,1⟩, 0, 0⟩ (50/3) (by norm_num)⟩

/-- Claim C7: on every tick where the controller reports grounded (and
no jump is pending), the grounded timer is reset to the grace period
(then decremented within the same tick) and the movement vector's
vertical component is the small negative epsilon -0.001 — strictly
negative, never exactly zero — and over any run of grounded ticks every
emitted vertical component equals that epsilon (stabilizes immediately,
never diverges). -/
theorem c7_grounded_vertical_epsilon (s : PlayerState) (dts : List ℚ)
    (hj : s.input.jump ≤ 0) :
    VERTICAL_MOVEMENT = -1/1000 ∧
    VERTICAL_MOVEMENT < 0 ∧
    VERTICAL_MOVEMENT ≠ 0 ∧
    (∀ dt : ℚ, (updatePlayer true dt s).2 = VERTICAL_MOVEMENT ∧
      (updatePlayer true dt s).1.groundedTimer =
        max (GROUNDED_TIMER_DEFAULT_VALUE - dt / 1000) 0) ∧
    (∀ y ∈ (runPlayer s (dts.map fun d => (true, d))).2,
      y = VERTICAL_MOVEMENT) := by
  refine ⟨rfl, by norm_num [VERTICAL_MOVEMENT], by norm_num [VERTICAL_MOVEMENT],
    ?_, runPlayer_grounded_all_epsilon dts s hj⟩
  intro dt
  rw [updatePlayer_grounded_nojump s dt hj]
  exact ⟨rfl, rfl⟩

/-- Witness for C7 at a grounded state with no input. -/
theorem c7_grounded_vertical_epsilon_witness :
    (⟨⟨0,0,0,0,0⟩, 0, 0⟩ : PlayerState).input.jump ≤ 0 ∧
    (VERTICAL_MOVEMENT = -1/1000 ∧
    VERTICAL_MOVEMENT < 0 ∧
    VERTICAL_MOVEMENT ≠ 0 ∧
    (∀ dt : ℚ, (updatePlayer true dt ⟨⟨0,0,0,0,0⟩, 0, 0⟩).2 = VERTICAL_MOVEMENT ∧
      (updatePlayer true dt ⟨⟨0,0,0,0,0⟩, 0, 0⟩).1.groundedTimer =
        max (GROUNDED_TIMER_DEFAULT_VALUE - dt / 1000) 0) ∧
    (∀ y ∈ (runPlayer ⟨⟨0,0,0,0,0⟩, 0, 0⟩
        (([50/3] : List ℚ).map fun d => (true, d))).2,
      y = VERTICAL_MOVEMENT)) :=
  ⟨by norm_num, c7_grounded_vertical_epsilon ⟨⟨0,0,0,0,0⟩, 0, 0⟩ [50/3] (by norm_num)⟩

/-- Claim C9: releasing any key never clears the jump flag (the keyup
handler has no Space case); once set by keydown, a jump pressed while
airborne with grounded timer 0 stays latched across arbitrarily many
airborne ticks, and triggers the jump impulse (clearing the flag) on the
first player update with a grounded event. -/
theorem c9_jump_flag_latched (i : PlayerInput) (s : PlayerState)
    (dts : List ℚ) (dt : ℚ)
    (hj : 0 < s.input.jump) (ht : s.groundedTimer ≤ 0) :
    (∀ (r : Bool) (c : KeyCode) (i2 : PlayerInput),
      (onKeyUp r c i2).jump = i2.jump) ∧
    (onKeyDown false KeyCode.space i).jump = 1 ∧
    (runPlayer s (dts.map fun d => (false, d))).1.input.jump = s.input.jump ∧
    (updatePlayer true dt (runPlayer s (dts.map fun d => (false, d))).1).2 = 1/4 ∧
    (updatePlayer true dt
      (runPlayer s (dts.map fun d => (false, d))).1).1.input.jump = 0 := by
  have hrun := runPlayer_airborne_state dts s ht
  have hjump : (runPlayer s (dts.map fun d => (false, d))).1.input.jump =
      s.input.jump := by rw [hrun.1]
  have hj2 : 0 < (runPlayer s (dts.map fun d => (false, d))).1.input.jump := by
    rw [hjump]
    exact hj
  have hstep := updatePlayer_grounded_jump _ dt hj2
  refine ⟨?_, rfl, hjump, by rw [hstep], by rw [hstep]⟩
  intro r c i2
  cases r <;> cases c <;> rfl

/-- Witness for C9: jump pressed while airborne, one airborne tick, then
a grounded tick. -/
theorem c9_jump_flag_latched_witness :
    0 < (⟨⟨0,0,0,0,1⟩, 0, -1/2⟩ : PlayerState).input.jump ∧
    (⟨⟨0,0,0,0,1⟩, 0, -1/2⟩ : PlayerState).groundedTimer ≤ 0 ∧
    ((∀ (r : Bool) (c : KeyCode) (i2 : PlayerInput),
      (onKeyUp r c i2).jump = i2.jump) ∧
    (onKeyDown false KeyCode.space ⟨0,0,0,0,0⟩).jump = 1 ∧
    (runPlayer ⟨⟨0,0,0,0,1⟩, 0, -1/2⟩
      (([50/3] : List ℚ).map fun d => (false, d))).1.input.jump =
      (⟨⟨0,0,0,0,1⟩, 0, -1/2⟩ : PlayerState).input.jump ∧
    (updatePlayer true (50/3) (runPlayer ⟨⟨0,0,0,0,1⟩, 0, -1/2⟩
      (([50/3] : List ℚ).map fun d => (false, d))).1).2 = 1/4 ∧
    (updatePlayer true (50/3) (runPlayer ⟨⟨0,0,0,0,1⟩, 0, -1/2⟩
      (([50/3] : List ℚ).map fun d => (false, d))).1).1.input.jump = 0) :=
  ⟨by norm_num, by norm_num,
    c9_jump_flag_latched ⟨0,0,0,0,0⟩ ⟨⟨0,0,0,0,1⟩, 0, -1/2⟩ [50/3] (50/3)
      (by norm_num) (by norm_num)⟩

lemma animate_init (t : ℚ) :
    animate initClockState t =
      ([FrameEvent.playerUpdate 0, FrameEvent.render], ⟨some t, some t, 0⟩) := by
  have hc : ⌈(t - initClockState.startTimeMs.getD t) / fixedTickDurationMs⌉ =
      (0 : ℤ) := by
    simp [initClockState]
  refine Prod.ext ?_ ?_
  · rw [animate_fst, hc]
    have hr : tickRange initClockState.elapsedTickCounter 0 = [] :=
      tickRange_eq_nil le_rfl
    rw [hr]
    rfl
  · rw [animate_snd, hc]
    rfl

/-- Claim C5: pausing on visibility loss resets the start time, the
elapsed render time, and the elapsed tick counter; after a resume, the
first frame at any timestamp behaves exactly like the very first frame
of a fresh run — it re-latches the start time, contributes zero physics
ticks (the pause gap is not simulated), and reports a zero render delta. -/
theorem c5_pause_reset_freezes_simulation (s : LoopState) (id : ℕ)
    (hid : s.animationId = some id) :
    (onDocVisibilityChange true s).clock = initClockState ∧
    (onDocVisibilityChange true s).animationId = none ∧
    (∀ t : ℚ,
      animate (onDocVisibilityChange true s).clock t = animate initClockState t ∧
      tickIndices (animate (onDocVisibilityChange true s).clock t).1 = [] ∧
      frameDelta (onDocVisibilityChange true s).clock t = 0 ∧
      (animate (onDocVisibilityChange true s).clock t).2 =
        ⟨some t, some t, 0⟩) := by
  have hdef : onDocVisibilityChange true s =
      { s with animationId := none, clock := initClockState,
               pending := s.pending.erase id } := by
    unfold onDocVisibilityChange
    rw [hid]
  rw [hdef]
  refine ⟨rfl, rfl, ?_⟩
  intro t
  refine ⟨rfl, ?_, rfl, ?_⟩
  · show tickIndices (animate initClockState t).1 = []
    rw [animate_init]
    rfl
  · show (animate initClockState t).2 = _
    rw [animate_init]

/-- Witness for C5 at a running loop state. -/
theorem c5_pause_reset_freezes_simulation_witness :
    (⟨⟨some 5, some 5, 1⟩, some 0, [0], 1⟩ : LoopState).animationId = some 0 ∧
    ((onDocVisibilityChange true ⟨⟨some 5, some 5, 1⟩, some 0, [0], 1⟩).clock =
      initClockState ∧
    (onDocVisibilityChange true
      ⟨⟨some 5, some 5, 1⟩, some 0, [0], 1⟩).animationId = none ∧
    (∀ t : ℚ,
      animate (onDocVisibilityChange true
        ⟨⟨some 5, some 5, 1⟩, some 0, [0], 1⟩).clock t =
        animate initClockState t ∧
      tickIndices (animate (onDocVisibilityChange true
        ⟨⟨some 5, some 5, 1⟩, some 0, [0], 1⟩).clock t).1 = [] ∧
      frameDelta (onDocVisibilityChange true
        ⟨⟨some 5, some 5, 1⟩, some 0, [0], 1⟩).clock t = 0 ∧
      (animate (onDocVisibilityChange true
        ⟨⟨some 5, some 5, 1⟩, some 0, [0], 1⟩).clock t).2 =
        ⟨some t, some t, 0⟩)) :=
  ⟨rfl, c5_pause_reset_freezes_simulation ⟨⟨some 5, some 5, 1⟩, some 0, [0], 1⟩ 0 rfl⟩

/-- Claim C10: whenever the pause condition (document hidden and a frame
scheduled) does not hold, the visibility handler schedules a new
animation frame unconditionally — without checking whether one is
already pending — so its pending-callback count always grows by one;
in particular the loop can be resumed while the document is hidden, and
a second concurrent callback chain can be created while one is pending. -/
theorem c10_reschedule_without_pending_check (s : LoopState) (hidden : Bool)
    (h : ¬(hidden = true ∧ s.animationId ≠ none)) :
    (onDocVisibilityChange hidden s).pending = s.nextId :: s.pending ∧
    (onDocVisibilityChange hidden s).animationId = some s.nextId ∧
    (onDocVisibilityChange hidden s).pending.length = s.pending.length + 1 := by
  cases hidden with
  | false =>
    cases hv : s.animationId with
    | none =>
      unfold onDocVisibilityChange
      rw [hv]
      exact ⟨rfl, rfl, rfl⟩
    | some id =>
      unfold onDocVisibilityChange
      rw [hv]
      exact ⟨rfl, rfl, rfl⟩
  | true =>
    cases hv : s.animationId with
    | none =>
      unfold onDocVisibilityChange
      rw [hv]
      exact ⟨rfl, rfl, rfl⟩
    | some id =>
      exact absurd ⟨rfl, by rw [hv]; exact Option.some_ne_none id⟩ h

/-- Witness for C10: a visibility event while visible and a frame already
pending schedules a second concurrent callback (pending count 2). -/
theorem c10_reschedule_without_pending_check_witness :
    ¬((false = true) ∧ (⟨initClockState, some 5, [5], 6⟩ : LoopState).animationId ≠ none) ∧
    ((onDocVisibilityChange false ⟨initClockState, some 5, [5], 6⟩).pending =
      (⟨initClockState, some 5, [5], 6⟩ : LoopState).nextId ::
        (⟨initClockState, some 5, [5], 6⟩ : LoopState).pending ∧
    (onDocVisibilityChange false ⟨initClockState, some 5, [5], 6⟩).animationId =
      some (⟨initClockState, some 5, [5], 6⟩ : LoopState).nextId ∧
    (onDocVisibilityChange false ⟨initClockState, some 5, [5], 6⟩).pending.length =
      (⟨initClockState, some 5, [5], 6⟩ : LoopState).pending.length + 1) :=
  ⟨by simp, c10_reschedule_without_pending_check ⟨initClockState, some 5, [5], 6⟩
    false (by simp)⟩

/-- Counterexample to claim C8: a mesh that has index data but no
position attribute at all lacks "position data", yet the load does not
skip it with a warning — the unguarded dereference of
`attributes['position'].array` throws, aborting the whole load, so the
following intact mesh is never processed and the function does not
return normally. -/
theorem c8_counterexample_missing_position_attribute_aborts :
    loadLevel [⟨"bad", none, some [0, 1, 2], (0, 0, 0)⟩,
        ⟨"good", some (some [1]), some [0], (0, 0, 0)⟩] =
      Except.error ("TypeError: Cannot read properties of undefined reading array at mesh bad") ∧
    (⟨"bad", none, some [0, 1, 2], (0, 0, 0)⟩ : MeshData).positionAttr = none := by
  exact ⟨rfl, rfl⟩

/-- Amended claim C8: provided every traversed mesh has a position
attribute, any mesh whose position array or index data is missing is
skipped with a warning and produces no collider, without aborting the
load of the remaining meshes — the load returns normally with exactly
the colliders of the intact meshes and one warning per skipped mesh.
(A mesh lacking the position attribute entirely instead throws before
the guard, aborting the load — the setup-time fatal path.) -/
theorem c8_amended_partial_failure_tolerant (ms : List MeshData)
    (h : ∀ m ∈ ms, m.positionAttr ≠ none) :
    loadLevel ms = .ok (ms.filterMap colliderOf, ms.filterMap warningOf) := by
  induction ms with
  | nil => rfl
  | cons m ms ih =>
    have hm : m.positionAttr ≠ none := h m (List.mem_cons_self m ms)
    have hrest := ih (fun x hx => h x (List.mem_cons_of_mem m hx))
    cases hp : m.positionAttr with
    | none => exact absurd hp hm
    | some posArr =>
      cases posArr with
      | none =>
        show (match processMesh m with
          | Except.error e => Except.error e
          | Except.ok (c, w) =>
            match loadLevel ms with
            | Except.error e => Except.error e
            | Except.ok (cs, ws) => Except.ok (c.toList ++ cs, w.toList ++ ws)) = _
        rw [show processMesh m = .ok (none, some ("Mesh " ++ m.name ++
            " marked as a collider, but failed to retrieve position attributes or indices.")) by
          unfold processMesh
          rw [hp]
          cases m.indexArr <;> rfl]
        rw [hrest]
        have hc : colliderOf m = none := by
          unfold colliderOf
          rw [hp]
        have hw : warningOf m = some ("Mesh " ++ m.name ++
            " marked as a collider, but failed to retrieve position attributes or indices.") := by
          unfold warningOf
          rw [hp]
        rw [List.filterMap_cons, List.filterMap_cons, hc, hw]
        rfl
      | some pos =>
        cases hi : m.indexArr with
        | none =>
          show (match processMesh m with
            | Except.error e => Except.error e
            | Except.ok (c, w) =>
              match loadLevel ms with
              | Except.error e => Except.error e
              | Except.ok (cs, ws) => Except.ok (c.toList ++ cs, w.toList ++ ws)) = _
          rw [show processMesh m = .ok (none, some ("Mesh " ++ m.name ++
              " marked as a collider, but failed to retrieve position attributes or indices.")) by
            unfold processMesh
            rw [hp, hi]]
          rw [hrest]
          have hc : colliderOf m = none := by
            unfold colliderOf
            rw [hp, hi]
          have hw : warningOf m = some ("Mesh " ++ m.name ++
              " marked as a collider, but failed to retrieve position attributes or indices.") := by
            unfold warningOf
            rw [hp, hi]
          rw [List.filterMap_cons, List.filterMap_cons, hc, hw]
          rfl
        | some idx =>
          show (match processMesh m with
            | Except.error e => Except.error e
            | Except.ok (c, w) =>
              match loadLevel ms with
              | Except.error e => Except.error e
              | Except.ok (cs, ws) => Except.ok (c.toList ++ cs, w.toList ++ ws)) = _
          rw [show processMesh m = .ok (some ⟨pos, idx, m.worldPos⟩, none) by
            unfold processMesh
            rw [hp, hi]]
          rw [hrest]
          have hc : colliderOf m = some ⟨pos, idx, m.worldPos⟩ := by
            unfold colliderOf
            rw [hp, hi]
          have hw : warningOf m = none := by
            unfold warningOf
            rw [hp, hi]
          rw [List.filterMap_cons, List.filterMap_cons, hc, hw]
          rfl

/-- Witness for C8 (amended): one intact mesh and one mesh with a
missing index — the load succeeds with one collider and one warning. -/
theorem c8_amended_partial_failure_tolerant_witness :
    (∀ m ∈ [(⟨"good", some (some [1]), some [0], (0, 0, 0)⟩ : MeshData),
        ⟨"warn", some (some [2]), none, (0, 0, 0)⟩], m.positionAttr ≠ none) ∧
    loadLevel [(⟨"good", some (some [1]), some [0], (0, 0, 0)⟩ : MeshData),
        ⟨"warn", some (some [2]), none, (0, 0, 0)⟩] =
      .ok ([(⟨"good", some (some [1]), some [0], (0, 0, 0)⟩ : MeshData),
          ⟨"warn", some (some [2]), none, (0, 0, 0)⟩].filterMap colliderOf,
        [(⟨"good", some (some [1]), some [0], (0, 0, 0)⟩ : MeshData),
          ⟨"warn", some (some [2]), none, (0, 0, 0)⟩].filterMap warningOf) :=
  ⟨by simp, c8_amended_partial_failure_tolerant _ (by simp)⟩

end Playground
